import Mathlib

/-!
Shallow embedding of `bingo_gen.py` and `media_gen.py` (bingo-card
generator and its text/image pipeline), together with proofs of the
specification's claims about them.

Modelling conventions:
* A Python 5x5 card (`List[List[int]]`) becomes `List (List ℕ)`.
* Python's `tuple(sorted(xs))` (the canonical form of a line) becomes the
  ascending sort of the list; since a sorted permutation is unique, any
  sorting function represents it faithfully and we use `List.insertionSort`
  because it evaluates by `decide`/`rfl`.
* A Python `set` of lines becomes a `Finset (List ℕ)`.
* `random.shuffle` of `list(range(1, 26))` is modelled by an explicit
  stream `ℕ → List ℕ` handing out the shuffled list for each successive
  call of `generate_random_card`; the guarantee of `random.shuffle` is the
  hypothesis that each list in the stream is a permutation of `[1..25]`.
* Python list indexing `card[i][j]` becomes `getD`-indexing; the default
  is never reached on the 5x5 cards the theorems quantify over.
* Python strings become `List Char`, files become lists of lines
  (each a `List Char` without the trailing newline), and `int(...)`
  becomes an `Option ℤ` parser; a raised `ValueError` becomes
  `Except.error`.
-/

/-- A bingo card: 5 rows of 5 numbers (Python `List[List[int]]`). -/
abbrev Card := List (List ℕ)

/-- A canonical line: the values of a row, column or diagonal as a sorted
list (Python `tuple(sorted(...))`). -/
abbrev Line := List ℕ

/-- Canonical form of a line: ascending sort (Python `tuple(sorted(xs))`). -/
def sortLine (l : List ℕ) : Line := l.insertionSort (· ≤ ·)

/-- `get_rows` from `bingo_gen.py`: each row as a sorted tuple. -/
def get_rows (card : Card) : List Line := card.map sortLine

/-- `get_columns` from `bingo_gen.py`: for each `j < 5`, the values
`card[i][j]` for `i < 5`, sorted. -/
def get_columns (card : Card) : List Line :=
  (List.range 5).map (fun j => sortLine ((List.range 5).map (fun i => (card.getD i []).getD j 0)))

/-- `get_diagonals` from `bingo_gen.py`: the main diagonal `card[i][i]`
and the anti-diagonal `card[i][4-i]`, each sorted. -/
def get_diagonals (card : Card) : List Line :=
  [sortLine ((List.range 5).map (fun i => (card.getD i []).getD i 0)),
   sortLine ((List.range 5).map (fun i => (card.getD i []).getD (4 - i) 0))]

/-- `get_all_lines` from `bingo_gen.py`: the set of all rows, columns and
diagonals of a card (a Python `set` of sorted tuples). -/
def get_all_lines (card : Card) : Finset Line :=
  (get_rows card).toFinset ∪ (get_columns card).toFinset ∪ (get_diagonals card).toFinset

/-- `generate_random_card` from `bingo_gen.py`: reshape the shuffled list
`numbers` (the result of `random.shuffle` on `list(range(1, 26))`) into a
5x5 grid row-major. -/
def generate_random_card (shuffled : List ℕ) : Card :=
  (List.range 5).map (fun i => (shuffled.drop (i * 5)).take 5)

/-- `cards_share_line` from `bingo_gen.py`:
`len(get_all_lines(card1) & get_all_lines(card2)) > 0`. -/
def cards_share_line (card1 card2 : Card) : Bool :=
  decide (0 < ((get_all_lines card1) ∩ (get_all_lines card2)).card)

/-- The `while` loop of `generate_unique_cards` from `bingo_gen.py`.
State: accepted `cards`, the `attempts` counter, and `idx`, the number of
calls made to `generate_random_card` so far (each call consumes
`stream idx`).  Each iteration first increments `attempts` (hence the
guard compares the pre-increment value), samples a candidate, accepts it
when it shares no line with any accepted card (resetting `attempts` to
zero), and otherwise keeps the incremented counter. -/
def generate_unique_cards_loop (stream : ℕ → List ℕ) (num_cards max_attempts : ℤ)
    (cards : List Card) (attempts : ℕ) (idx : ℕ) : List Card × ℕ × ℕ :=
  if (cards.length : ℤ) < num_cards ∧ (attempts : ℤ) < max_attempts then
    if cards.all (fun existing => !(cards_share_line (generate_random_card (stream idx)) existing)) then
      generate_unique_cards_loop stream num_cards max_attempts
        (cards ++ [generate_random_card (stream idx)]) 0 (idx + 1)
    else
      generate_unique_cards_loop stream num_cards max_attempts cards (attempts + 1) (idx + 1)
  else
    (cards, attempts, idx)
termination_by ((num_cards - cards.length).toNat, (max_attempts - attempts).toNat)
decreasing_by
  · apply Prod.Lex.left
    simp only [List.length_append, List.length_cons, List.length_nil]
    omega
  · apply Prod.Lex.right
    omega

/-- `generate_unique_cards` from `bingo_gen.py`: run the loop from the
empty batch with `attempts = 0`, returning the accepted cards. -/
def generate_unique_cards (stream : ℕ → List ℕ) (num_cards max_attempts : ℤ) : List Card :=
  (generate_unique_cards_loop stream num_cards max_attempts [] 0 0).1

/-- The number of cards actually produced by a run, as the code reports it
(`len(cards)` of the returned batch). -/
def num_cards_produced (stream : ℕ → List ℕ) (num_cards max_attempts : ℤ) : ℕ :=
  (generate_unique_cards stream num_cards max_attempts).length

/-- Two cards are line-disjoint when their line sets do not intersect. -/
def LineDisjoint (A B : Card) : Prop := get_all_lines A ∩ get_all_lines B = ∅

/-- The data-model invariant of a generated card: a 5x5 grid whose 25
entries are exactly the integers 1..25, each appearing exactly once. -/
def is_valid_card (c : Card) : Prop :=
  c.length = 5 ∧ (∀ r ∈ c, r.length = 5) ∧ c.flatten.Perm (List.range' 1 25)

/-! ### A 5x5 grid presented through its flattened entries

`gridOfFn f` is the 5x5 card whose row-major entries are `f 0, …, f 24`;
every well-formed 5x5 card is of this shape.  `lineIndices` lists, for each
of the 12 lines (5 rows, 5 columns, main diagonal, anti-diagonal), the
flat indices of its 5 cells. -/

/-- The 5x5 card with row-major entries `f 0, …, f 24`. -/
def gridOfFn (f : Fin 25 → ℕ) : Card :=
  [[f 0, f 1, f 2, f 3, f 4],
   [f 5, f 6, f 7, f 8, f 9],
   [f 10, f 11, f 12, f 13, f 14],
   [f 15, f 16, f 17, f 18, f 19],
   [f 20, f 21, f 22, f 23, f 24]]

/-- Flat cell indices of the 12 lines of a 5x5 card, in the order produced
by `get_rows ++ get_columns ++ get_diagonals`. -/
def lineIndices : List (List (Fin 25)) :=
  [[0, 1, 2, 3, 4], [5, 6, 7, 8, 9], [10, 11, 12, 13, 14],
   [15, 16, 17, 18, 19], [20, 21, 22, 23, 24],
   [0, 5, 10, 15, 20], [1, 6, 11, 16, 21], [2, 7, 12, 17, 22],
   [3, 8, 13, 18, 23], [4, 9, 14, 19, 24],
   [0, 6, 12, 18, 24], [4, 8, 12, 16, 20]]

/-! ### Embedding of `media_gen.py`

Python strings are modelled as `List Char`; a text file is the list of its
lines (with no trailing newline). -/

/-- A Python string. -/
abbrev PyStr := List Char

/-- Python `str.strip()`: remove leading and trailing whitespace. -/
def pyStrip (s : PyStr) : PyStr :=
  ((s.dropWhile Char.isWhitespace).reverse.dropWhile Char.isWhitespace).reverse

/-- Python `str.split()` with no argument: split on whitespace runs,
discarding empty pieces. -/
def pySplit (s : PyStr) : List PyStr :=
  (s.splitOnP Char.isWhitespace).filter (fun t => t ≠ [])

/-- Value of a string of decimal digits. -/
def digitsToNat (s : PyStr) : ℕ :=
  s.foldl (fun acc c => 10 * acc + (c.toNat - 48)) 0

/-- Python `int(s)` on a whitespace-free token: an optional sign followed
by at least one decimal digit parses to the integer; anything else raises
`ValueError`, modelled as `none`. -/
def pyInt (s : PyStr) : Option ℤ :=
  match s with
  | '-' :: rest =>
    if rest ≠ [] ∧ rest.all Char.isDigit then some (-(digitsToNat rest : ℤ)) else none
  | '+' :: rest =>
    if rest ≠ [] ∧ rest.all Char.isDigit then some ((digitsToNat rest : ℤ)) else none
  | _ =>
    if s ≠ [] ∧ s.all Char.isDigit then some ((digitsToNat s : ℤ)) else none

/-- The list comprehension `[int(num) for num in tokens]`: all tokens must
parse, otherwise `int` raises (`none`). -/
def pyIntList : List PyStr → Option (List ℤ)
  | [] => some []
  | t :: ts =>
    match pyInt t, pyIntList ts with
    | some v, some vs => some (v :: vs)
    | _, _ => none

/-- `row = [int(num) for num in line.split()]` from `read_cards_from_file`. -/
def parse_row (s : PyStr) : Option (List ℤ) := pyIntList (pySplit s)

/-- The `for line in f` loop of `read_cards_from_file` in `media_gen.py`,
with accumulator state `cards` and `current_card`.  A line that is, after
stripping, empty is skipped; a line equal to `'='` closes the current
card; any other line is parsed with `int` (raising `ValueError`, modelled
as `Except.error` carrying the offending line, on a non-integer token) and
appended to the current card only when it has exactly 5 numbers. -/
def read_cards_loop :
    List PyStr → List (List (List ℤ)) → List (List ℤ) → Except PyStr (List (List (List ℤ)))
  | [], cards, current =>
    Except.ok (if current ≠ [] ∧ current.length = 5 then cards ++ [current] else cards)
  | line :: rest, cards, current =>
    if pyStrip line = [] then read_cards_loop rest cards current
    else if pyStrip line = ['='] then
      (if current ≠ [] then read_cards_loop rest (cards ++ [current]) []
       else read_cards_loop rest cards current)
    else
      match parse_row (pyStrip line) with
      | none => Except.error (pyStrip line)
      | some row =>
        if row.length = 5 then read_cards_loop rest cards (current ++ [row])
        else read_cards_loop rest cards current

/-- `read_cards_from_file` from `media_gen.py`, over the file's lines. -/
def read_cards_from_file (lines : List PyStr) : Except PyStr (List (List (List ℤ))) :=
  read_cards_loop lines [] []

/-- Python `f"{n:2d}"` for a natural number: the decimal digits, padded on
the left with a space to width at least 2. -/
def pyFmt2 (n : ℕ) : PyStr :=
  if n < 10 then ' ' :: Nat.toDigits 10 n else Nat.toDigits 10 n

/-- The separator line `'=' * 27` written by `save_cards_to_file`. -/
def sepLine : PyStr := List.replicate 27 '='

/-- One card row as written by `save_cards_to_file`:
`"  " + "  ".join(f"{num:2d}" for num in row)`. -/
def rowText (row : List ℕ) : PyStr :=
  "  ".data ++ List.intercalate ("  ".data) (row.map pyFmt2)

/-- The lines written by `save_cards_to_file` for card number `i`:
separator, `  CARD {i:2d}` header, separator, the 5 rows, separator, and
the blank line coming from the final `"\n\n"`. -/
def card_block (i : ℕ) (card : Card) : List PyStr :=
  [sepLine, "  CARD ".data ++ pyFmt2 i, sepLine] ++ card.map rowText ++ [sepLine, []]

/-- The `for i, card in enumerate(cards, 1)` loop of `save_cards_to_file`. -/
def save_cards_aux : ℕ → List Card → List PyStr
  | _, [] => []
  | i, c :: cs => card_block i c ++ save_cards_aux (i + 1) cs

/-- `save_cards_to_file` from `bingo_gen.py`: the lines of the text file
it writes for a batch of cards. -/
def save_cards_to_file (cards : List Card) : List PyStr := save_cards_aux 1 cards

/-- `filename.lower().endswith(('.jpg', '.jpeg'))` from
`load_images_from_folder`. -/
def isJpegName (s : PyStr) : Bool :=
  (".jpg".data.isSuffixOf (s.map Char.toLower)) || (".jpeg".data.isSuffixOf (s.map Char.toLower))

/-- Python `<` on strings: lexicographic comparison by code point. -/
def strLtB : PyStr → PyStr → Bool
  | [], [] => false
  | [], _ :: _ => true
  | _ :: _, [] => false
  | a :: as, b :: bs => if a < b then true else if a = b then strLtB as bs else false

/-- `load_images_from_folder` from `media_gen.py`: `listing` is
`os.listdir(folder)`.  The JPEG files of the sorted listing are joined to
the folder path; if there are not exactly 25 of them a `ValueError` is
raised (`Except.error`), otherwise numbers 1..25 are mapped to the files
in order. -/
def load_images_from_folder (folder : PyStr) (listing : List PyStr) :
    Except PyStr (List (ℕ × PyStr)) :=
  let image_files :=
    ((listing.insertionSort (fun a b => strLtB b a = false)).filter isJpegName).map
      (fun name => folder ++ '/' :: name)
  if image_files.length ≠ 25 then Except.error ("Expected 25 images".data)
  else Except.ok ((List.range 25).map (fun i => (i + 1, image_files.getD i [])))

/-! ### Concrete data used by witnesses -/

/-- The identity shuffle `[1, …, 25]`. -/
def shuffleA : List ℕ := List.range' 1 25

/-- A second permutation of `[1, …, 25]` whose card shares no line with
the card of `shuffleA` (cell `(i, j)` holds
`5*((i + 3j) % 5) + ((2i + 4j) % 5) + 1`). -/
def shuffleB : List ℕ :=
  [1, 20, 9, 23, 12, 8, 22, 11, 5, 19, 15, 4, 18, 7, 21, 17, 6, 25, 14, 3, 24, 13, 2, 16, 10]

/-- A random source producing the card of `shuffleA` first and the card of
`shuffleB` on every later draw. -/
def streamAB (k : ℕ) : List ℕ := if k = 0 then shuffleA else shuffleB

/-! ## Basic lemmas about the generation loop -/

/-- Unfolding the loop when the guard holds and the candidate is accepted:
the candidate is appended and the attempt counter resets to zero. -/
theorem loop_step_accept (stream : ℕ → List ℕ) (n m : ℤ) (cards : List Card) (a i : ℕ)
    (h1 : (cards.length : ℤ) < n) (h2 : (a : ℤ) < m)
    (h3 : cards.all (fun existing => !(cards_share_line (generate_random_card (stream i)) existing)) = true) :
    generate_unique_cards_loop stream n m cards a i =
      generate_unique_cards_loop stream n m (cards ++ [generate_random_card (stream i)]) 0 (i + 1) := by
  rw [generate_unique_cards_loop]
  rw [if_pos ⟨h1, h2⟩, if_pos h3]

/-- Unfolding the loop when the guard holds and the candidate is rejected:
the batch is unchanged and the attempt counter is incremented. -/
theorem loop_step_reject (stream : ℕ → List ℕ) (n m : ℤ) (cards : List Card) (a i : ℕ)
    (h1 : (cards.length : ℤ) < n) (h2 : (a : ℤ) < m)
    (h3 : cards.all (fun existing => !(cards_share_line (generate_random_card (stream i)) existing)) = false) :
    generate_unique_cards_loop stream n m cards a i =
      generate_unique_cards_loop stream n m cards (a + 1) (i + 1) := by
  rw [generate_unique_cards_loop]
  rw [if_pos ⟨h1, h2⟩, if_neg (by simp [h3])]

/-- Unfolding the loop when the guard fails: the state is returned. -/
theorem loop_stop (stream : ℕ → List ℕ) (n m : ℤ) (cards : List Card) (a i : ℕ)
    (h : ¬((cards.length : ℤ) < n ∧ (a : ℤ) < m)) :
    generate_unique_cards_loop stream n m cards a i = (cards, a, i) := by
  rw [generate_unique_cards_loop]
  rw [if_neg h]

/-- `cards_share_line` decides exactly the negation of line-disjointness. -/
theorem share_eq_false_iff (A B : Card) :
    cards_share_line A B = false ↔ LineDisjoint A B := by
  rw [cards_share_line, LineDisjoint]
  simp [Finset.card_pos, Finset.not_nonempty_iff_eq_empty]

/-- Every card has at least one line (the five column lines always exist). -/
theorem get_all_lines_nonempty (c : Card) : (get_all_lines c).Nonempty := by
  refine ⟨sortLine ((List.range 5).map (fun i => (c.getD i []).getD 0 0)), ?_⟩
  have hm : sortLine ((List.range 5).map (fun i => (c.getD i []).getD 0 0)) ∈ get_columns c :=
    List.mem_map.mpr ⟨0, by simp, rfl⟩
  rw [get_all_lines]
  exact Finset.mem_union_left _ (Finset.mem_union_right _ (List.mem_toFinset.mpr hm))

/-- A card always shares a line with itself. -/
theorem share_self (c : Card) : cards_share_line c c = true := by
  rw [cards_share_line]
  simp [Finset.card_pos, get_all_lines_nonempty]

/-- The loop preserves pairwise line-disjointness of the accepted batch. -/
theorem loop_pairwise (stream : ℕ → List ℕ) (n m : ℤ) (cards : List Card) (a i : ℕ) :
    cards.Pairwise LineDisjoint →
      ((generate_unique_cards_loop stream n m cards a i).1).Pairwise LineDisjoint := by
  induction cards, a, i using generate_unique_cards_loop.induct stream n m with
  | case1 cards a i hg hall ih =>
    intro hp
    rw [loop_step_accept stream n m cards a i hg.1 hg.2 hall]
    apply ih
    rw [List.pairwise_append]
    refine ⟨hp, by simp, ?_⟩
    intro x hx y hy
    simp at hy
    subst hy
    rw [List.all_eq_true] at hall
    have := hall x hx
    simp at this
    rw [share_eq_false_iff] at this
    rw [LineDisjoint, Finset.inter_comm]
    exact this
  | case2 cards a i hg hall ih =>
    intro hp
    rw [loop_step_reject stream n m cards a i hg.1 hg.2 (by simpa using hall)]
    exact ih hp
  | case3 cards a i hg =>
    intro hp
    rw [loop_stop stream n m cards a i hg]
    exact hp

/-- Every member of the final batch is an initial member or a sampled card. -/
theorem loop_mem (stream : ℕ → List ℕ) (n m : ℤ) (P : Card → Prop)
    (hP : ∀ j, P (generate_random_card (stream j))) (cards : List Card) (a i : ℕ) :
    (∀ c ∈ cards, P c) → ∀ c ∈ (generate_unique_cards_loop stream n m cards a i).1, P c := by
  induction cards, a, i using generate_unique_cards_loop.induct stream n m with
  | case1 cards a i hg hall ih =>
    intro hc
    rw [loop_step_accept stream n m cards a i hg.1 hg.2 hall]
    apply ih
    intro c hmem
    rcases List.mem_append.mp hmem with h | h
    · exact hc c h
    · simp at h
      subst h
      exact hP i
  | case2 cards a i hg hall ih =>
    intro hc
    rw [loop_step_reject stream n m cards a i hg.1 hg.2 (by simpa using hall)]
    exact ih hc
  | case3 cards a i hg =>
    intro hc
    rw [loop_stop stream n m cards a i hg]
    exact hc

/-- The final batch never exceeds the requested size (or the starting size,
when the loop starts past the target). -/
theorem loop_length (stream : ℕ → List ℕ) (n m : ℤ) (cards : List Card) (a i : ℕ) :
    ((generate_unique_cards_loop stream n m cards a i).1).length ≤ max n.toNat cards.length := by
  induction cards, a, i using generate_unique_cards_loop.induct stream n m with
  | case1 cards a i hg hall ih =>
    rw [loop_step_accept stream n m cards a i hg.1 hg.2 hall]
    have hlt := hg.1
    simp only [List.length_append, List.length_cons, List.length_nil] at ih
    omega
  | case2 cards a i hg hall ih =>
    rw [loop_step_reject stream n m cards a i hg.1 hg.2 (by simpa using hall)]
    exact ih
  | case3 cards a i hg =>
    rw [loop_stop stream n m cards a i hg]
    exact le_max_right _ _

/-- When every remaining candidate conflicts with the batch, the loop keeps
rejecting until the attempt budget runs out and returns the batch as is. -/
theorem loop_stall (stream : ℕ → List ℕ) (n m : ℤ) (cards : List Card) (a i : ℕ) :
    (∀ j, i ≤ j →
        cards.all (fun e => !(cards_share_line (generate_random_card (stream j)) e)) = false) →
      (generate_unique_cards_loop stream n m cards a i).1 = cards := by
  induction cards, a, i using generate_unique_cards_loop.induct stream n m with
  | case1 cards a i hg hall ih =>
    intro h
    exact absurd hall (by simp [h i le_rfl])
  | case2 cards a i hg hall ih =>
    intro h
    rw [loop_step_reject stream n m cards a i hg.1 hg.2 (by simpa using hall)]
    exact ih (fun j hj => h j (by omega))
  | case3 cards a i hg =>
    intro h
    rw [loop_stop stream n m cards a i hg]

/-- A constant random source accepts its first card and then stalls: every
later candidate equals the accepted card and is rejected until the budget
is exhausted. -/
theorem const_stream_stalls (shuffled : List ℕ) (n m : ℤ) (hn : 2 ≤ n) (hm : 1 ≤ m) :
    (generate_unique_cards_loop (fun _ => shuffled) n m [] 0 0).1 =
      [generate_random_card shuffled] := by
  rw [loop_step_accept (fun _ => shuffled) n m [] 0 0 (by simp; omega) (by omega) rfl]
  simp only [List.nil_append]
  apply loop_stall
  intro j hj
  simp [share_self]

/-- The two-card run used by witnesses: `streamAB` first yields the card
of `shuffleA`, then the line-disjoint card of `shuffleB`, and the run
accepts both. -/
theorem runAB : generate_unique_cards streamAB 2 2 =
    [generate_random_card shuffleA, generate_random_card shuffleB] := by
  rw [generate_unique_cards]
  rw [loop_step_accept streamAB 2 2 [] 0 0 (by decide) (by decide) rfl]
  simp only [List.nil_append]
  rw [loop_step_accept streamAB 2 2 [generate_random_card (streamAB 0)] 0 1
    (by decide) (by decide) (by decide)]
  rw [loop_stop streamAB 2 2
    ([generate_random_card (streamAB 0)] ++ [generate_random_card (streamAB 1)]) 0 2 (by decide)]
  rfl

/-- C1: every batch returned by `generate_unique_cards` is pairwise
line-disjoint: any two distinct cards of the returned list have disjoint
`get_all_lines` sets — no row, column or diagonal value-set is shared. -/
theorem generate_unique_cards_pairwise_line_disjoint
    (stream : ℕ → List ℕ) (num_cards max_attempts : ℤ) (A B : Card)
    (hA : A ∈ generate_unique_cards stream num_cards max_attempts)
    (hB : B ∈ generate_unique_cards stream num_cards max_attempts)
    (hAB : A ≠ B) : get_all_lines A ∩ get_all_lines B = ∅ := by
  have hp := loop_pairwise stream num_cards max_attempts [] 0 0 (by simp)
  have hsymm : Symmetric LineDisjoint := fun x y h => by
    rw [LineDisjoint, Finset.inter_comm]
    exact h
  exact hp.forall hsymm hA hB hAB

/-- Witness for C1: a concrete two-card batch with both memberships and
the disjointness conclusion. -/
theorem generate_unique_cards_pairwise_line_disjoint_witness :
    generate_random_card shuffleA ∈ generate_unique_cards streamAB 2 2 ∧
    generate_random_card shuffleB ∈ generate_unique_cards streamAB 2 2 ∧
    generate_random_card shuffleA ≠ generate_random_card shuffleB ∧
    get_all_lines (generate_random_card shuffleA) ∩
      get_all_lines (generate_random_card shuffleB) = ∅ := by
  have hA : generate_random_card shuffleA ∈ generate_unique_cards streamAB 2 2 := by
    rw [runAB]
    simp
  have hB : generate_random_card shuffleB ∈ generate_unique_cards streamAB 2 2 := by
    rw [runAB]
    simp
  have hne : generate_random_card shuffleA ≠ generate_random_card shuffleB := by decide
  exact ⟨hA, hB, hne,
    generate_unique_cards_pairwise_line_disjoint streamAB 2 2 _ _ hA hB hne⟩

/-- A list of length 25 is a 25-element literal. -/
theorem list_eq_of_length_25 (l : List ℕ) (h : l.length = 25) :
    ∃ x0 x1 x2 x3 x4 x5 x6 x7 x8 x9 x10 x11 x12 x13 x14 x15 x16 x17 x18 x19 x20 x21 x22 x23 x24,
      l = [x0, x1, x2, x3, x4, x5, x6, x7, x8, x9, x10, x11, x12, x13, x14, x15, x16, x17,
        x18, x19, x20, x21, x22, x23, x24] := by
  match l, h with
  | [x0, x1, x2, x3, x4, x5, x6, x7, x8, x9, x10, x11, x12, x13, x14, x15, x16, x17,
      x18, x19, x20, x21, x22, x23, x24], _ =>
    exact ⟨x0, x1, x2, x3, x4, x5, x6, x7, x8, x9, x10, x11, x12, x13, x14, x15, x16, x17,
      x18, x19, x20, x21, x22, x23, x24, rfl⟩

/-- Reshaping a 25-element list row-major gives the expected 5x5 grid. -/
theorem generate_random_card_eq
    (x0 x1 x2 x3 x4 x5 x6 x7 x8 x9 x10 x11 x12 x13 x14 x15 x16 x17 x18 x19 x20 x21 x22 x23 x24 : ℕ) :
    generate_random_card [x0, x1, x2, x3, x4, x5, x6, x7, x8, x9, x10, x11, x12, x13, x14,
        x15, x16, x17, x18, x19, x20, x21, x22, x23, x24] =
      [[x0, x1, x2, x3, x4], [x5, x6, x7, x8, x9], [x10, x11, x12, x13, x14],
       [x15, x16, x17, x18, x19], [x20, x21, x22, x23, x24]] := rfl

/-- A card generated from any permutation of `[1..25]` is a valid card. -/
theorem generate_random_card_valid (l : List ℕ) (h : l.Perm (List.range' 1 25)) :
    is_valid_card (generate_random_card l) := by
  have h25 : l.length = 25 := by simpa using h.length_eq
  obtain ⟨x0, x1, x2, x3, x4, x5, x6, x7, x8, x9, x10, x11, x12, x13, x14, x15, x16, x17,
    x18, x19, x20, x21, x22, x23, x24, rfl⟩ := list_eq_of_length_25 l h25
  rw [generate_random_card_eq]
  refine ⟨rfl, ?_, ?_⟩
  · intro r hr
    simp only [List.mem_cons, List.not_mem_nil, or_false] at hr
    rcases hr with rfl | rfl | rfl | rfl | rfl <;> rfl
  · exact h

/-- C2: every card produced by `generate_random_card` from a shuffle of
`[1..25]`, and hence every card of a batch returned by
`generate_unique_cards`, is a 5x5 grid whose 25 entries are exactly the
integers 1..25, each exactly once. -/
theorem generated_cards_are_permutations :
    (∀ l : List ℕ, l.Perm (List.range' 1 25) → is_valid_card (generate_random_card l)) ∧
    (∀ (stream : ℕ → List ℕ) (num_cards max_attempts : ℤ),
      (∀ k, (stream k).Perm (List.range' 1 25)) →
      ∀ c ∈ generate_unique_cards stream num_cards max_attempts, is_valid_card c) := by
  constructor
  · exact generate_random_card_valid
  · intro stream n m hs c hc
    exact loop_mem stream n m is_valid_card
      (fun j => generate_random_card_valid _ (hs j)) [] 0 0 (by simp) c hc

/-- Witness for C2: the identity shuffle is a permutation of `[1..25]`,
its card is a member of a concrete run, and the claim applies to both. -/
theorem generated_cards_are_permutations_witness :
    shuffleA.Perm (List.range' 1 25) ∧
    generate_random_card shuffleA ∈ generate_unique_cards (fun _ => shuffleA) 1 1 ∧
    is_valid_card (generate_random_card shuffleA) := by
  have hperm : shuffleA.Perm (List.range' 1 25) := by decide
  have hrun : generate_unique_cards (fun _ => shuffleA) 1 1 =
      [generate_random_card shuffleA] := by
    rw [generate_unique_cards]
    rw [loop_step_accept (fun _ => shuffleA) 1 1 [] 0 0 (by decide) (by decide) rfl]
    simp only [List.nil_append]
    rw [loop_stop (fun _ => shuffleA) 1 1 [generate_random_card shuffleA] 0 1 (by decide)]
  have hmem : generate_random_card shuffleA ∈ generate_unique_cards (fun _ => shuffleA) 1 1 := by
    rw [hrun]
    simp
  exact ⟨hperm, hmem,
    generated_cards_are_permutations.2 (fun _ => shuffleA) 1 1 (fun _ => hperm) _ hmem⟩

/-- C3: when the budget runs out before the batch is full, the function
still returns normally with the partial batch.  With any constant random
source, a target of at least 2 cards and any positive budget, the run
exhausts its budget rejecting duplicates and returns the 1-card partial
batch — no error value exists in the return type and none is produced. -/
theorem generate_unique_cards_exhaustion_returns_partial (shuffled : List ℕ) (n m : ℤ)
    (hn : 2 ≤ n) (hm : 1 ≤ m) :
    generate_unique_cards (fun _ => shuffled) n m = [generate_random_card shuffled] ∧
    ((generate_unique_cards (fun _ => shuffled) n m).length : ℤ) < n := by
  have h := const_stream_stalls shuffled n m hn hm
  rw [generate_unique_cards]
  rw [h]
  simp
  omega

/-- Witness for C3 at `n = 2`, `m = 1` with the identity shuffle. -/
theorem generate_unique_cards_exhaustion_returns_partial_witness :
    generate_unique_cards (fun _ => shuffleA) 2 1 = [generate_random_card shuffleA] ∧
    ((generate_unique_cards (fun _ => shuffleA) 2 1).length : ℤ) < 2 :=
  generate_unique_cards_exhaustion_returns_partial shuffleA 2 1 (by decide) (by decide)

/-- C4: a run hands its caller the resulting batch together with the
number of cards actually produced — the count the code reports is exactly
the length of the returned batch; it never exceeds the request, and some
runs produce strictly fewer cards than requested. -/
theorem generate_unique_cards_output_batch_and_count :
    (∀ (stream : ℕ → List ℕ) (num_cards max_attempts : ℤ),
      num_cards_produced stream num_cards max_attempts =
        (generate_unique_cards stream num_cards max_attempts).length ∧
      (num_cards_produced stream num_cards max_attempts : ℤ) ≤ max num_cards 0) ∧
    (∃ (stream : ℕ → List ℕ) (num_cards max_attempts : ℤ),
      (num_cards_produced stream num_cards max_attempts : ℤ) < num_cards) := by
  constructor
  · intro stream n m
    refine ⟨rfl, ?_⟩
    have h := loop_length stream n m [] 0 0
    rw [num_cards_produced, generate_unique_cards]
    simp only [List.length_nil] at h
    omega
  · refine ⟨fun _ => shuffleA, 2, 1, ?_⟩
    have h := const_stream_stalls shuffleA 2 1 (by decide) (by decide)
    rw [num_cards_produced, generate_unique_cards, h]
    decide

/-- C5: the attempt counter resets to zero on every acceptance, so the
budget applies per candidate slot: accepting a candidate restarts the loop
with `attempts = 0`, and with budget 1 and a source whose every later
candidate conflicts with the first accepted card the run returns a batch
of size exactly 1 without error. -/
theorem attempt_counter_resets_per_slot :
    (∀ (stream : ℕ → List ℕ) (n m : ℤ) (cards : List Card) (a i : ℕ),
      (cards.length : ℤ) < n → (a : ℤ) < m →
      cards.all (fun e => !(cards_share_line (generate_random_card (stream i)) e)) = true →
      generate_unique_cards_loop stream n m cards a i =
        generate_unique_cards_loop stream n m (cards ++ [generate_random_card (stream i)]) 0 (i + 1)) ∧
    (∀ (stream : ℕ → List ℕ) (n : ℤ), 2 ≤ n →
      (∀ k, 1 ≤ k →
        cards_share_line (generate_random_card (stream k)) (generate_random_card (stream 0)) = true) →
      generate_unique_cards stream n 1 = [generate_random_card (stream 0)]) := by
  constructor
  · exact loop_step_accept
  · intro stream n hn hconf
    rw [generate_unique_cards]
    rw [loop_step_accept stream n 1 [] 0 0 (by simp; omega) (by decide) rfl]
    simp only [List.nil_append]
    apply loop_stall
    intro j hj
    simp [hconf j hj]

/-- Witness for C5: a concrete accepted step resetting the counter, and a
concrete budget-1 adversarial run stalling at size 1. -/
theorem attempt_counter_resets_per_slot_witness :
    (generate_unique_cards_loop streamAB 2 2 [] 0 0 =
      generate_unique_cards_loop streamAB 2 2 ([] ++ [generate_random_card (streamAB 0)]) 0 1) ∧
    generate_unique_cards (fun _ => shuffleA) 2 1 = [generate_random_card shuffleA] :=
  ⟨attempt_counter_resets_per_slot.1 streamAB 2 2 [] 0 0 (by decide) (by decide) rfl,
   attempt_counter_resets_per_slot.2 (fun _ => shuffleA) 2 (by decide)
     (fun _ _ => share_self (generate_random_card shuffleA))⟩

/-- C10: the batch never exceeds `max num_cards 0` cards, and for any
non-positive request the loop stops at once, returning the empty batch
with the draw counter still at zero — no card is sampled. -/
theorem generate_unique_cards_length_le_max :
    ∀ (stream : ℕ → List ℕ) (num_cards max_attempts : ℤ),
      ((generate_unique_cards stream num_cards max_attempts).length : ℤ) ≤ max num_cards 0 ∧
      (num_cards ≤ 0 →
        generate_unique_cards stream num_cards max_attempts = [] ∧
        generate_unique_cards_loop stream num_cards max_attempts [] 0 0 = ([], 0, 0)) := by
  intro stream n m
  constructor
  · have h := loop_length stream n m [] 0 0
    rw [generate_unique_cards]
    simp only [List.length_nil] at h
    omega
  · intro hn
    have h := loop_stop stream n m [] 0 0 (by simp; omega)
    exact ⟨by rw [generate_unique_cards, h], h⟩

/-- Witness for C10 at `num_cards = -1`. -/
theorem generate_unique_cards_length_le_max_witness :
    ((-1 : ℤ) ≤ 0) ∧
    generate_unique_cards (fun _ => shuffleA) (-1) 1 = [] ∧
    generate_unique_cards_loop (fun _ => shuffleA) (-1) 1 [] 0 0 = ([], 0, 0) :=
  ⟨by decide, (generate_unique_cards_length_le_max (fun _ => shuffleA) (-1) 1).2 (by decide)⟩

/-! ## Line canonicalization and the 12 lines of a card -/

/-- Sorting a line permutes its values. -/
theorem sortLine_perm (l : List ℕ) : (sortLine l).Perm l := List.perm_insertionSort _ l

/-- The canonical line is sorted ascending. -/
theorem sortLine_sorted (l : List ℕ) : List.Sorted (· ≤ ·) (sortLine l) :=
  List.sorted_insertionSort _ l

/-- Lines with the same canonical form have the same values. -/
theorem perm_of_sortLine_eq {X Y : List ℕ} (h : sortLine X = sortLine Y) : X.Perm Y := by
  have h1 := (sortLine_perm X).symm
  have h2 := sortLine_perm Y
  rw [h] at h1
  exact h1.trans h2

/-- Distinct cell sets of an injective grid give distinct canonical lines. -/
theorem mapFin_ne_of_multiset_ne (f : Fin 25 → ℕ) (hf : Function.Injective f)
    (I J : List (Fin 25)) (hIJ : Multiset.ofList I ≠ Multiset.ofList J) :
    sortLine (I.map f) ≠ sortLine (J.map f) := by
  intro h
  apply hIJ
  have hp : (I.map f).Perm (J.map f) := perm_of_sortLine_eq h
  have hm : Multiset.map f (Multiset.ofList I) = Multiset.map f (Multiset.ofList J) := by
    rw [Multiset.map_coe, Multiset.map_coe]
    exact Multiset.coe_eq_coe.mpr hp
  exact Multiset.map_injective hf hm

/-- The 12 lines of a grid are the canonical lines of its 12 cell sets. -/
theorem lines_of_gridOfFn (f : Fin 25 → ℕ) :
    get_rows (gridOfFn f) ++ get_columns (gridOfFn f) ++ get_diagonals (gridOfFn f) =
      lineIndices.map (fun I => sortLine (I.map f)) := rfl

/-- `get_all_lines` as the set of the concatenated line lists. -/
theorem all_lines_toFinset (c : Card) :
    get_all_lines c = (get_rows c ++ get_columns c ++ get_diagonals c).toFinset := by
  rw [get_all_lines]
  simp [List.toFinset_append]

/-- No two of the 12 cell sets of a 5x5 card coincide. -/
theorem pairwise_lineIndices :
    lineIndices.Pairwise (fun I J => Multiset.ofList I ≠ Multiset.ofList J) := by
  decide

/-- A grid with 25 distinct entries has exactly 12 distinct lines. -/
theorem card_lines_gridOfFn (f : Fin 25 → ℕ) (hf : Function.Injective f) :
    (get_all_lines (gridOfFn f)).card = 12 := by
  rw [all_lines_toFinset, lines_of_gridOfFn]
  have hnd : (lineIndices.map (fun I => sortLine (I.map f))).Nodup := by
    have hp : lineIndices.Pairwise (fun I J => sortLine (I.map f) ≠ sortLine (J.map f)) :=
      List.Pairwise.imp (fun hIJ => mapFin_ne_of_multiset_ne f hf _ _ hIJ) pairwise_lineIndices
    exact List.pairwise_map.mpr hp
  rw [List.toFinset_card_of_nodup hnd]
  simp [lineIndices]

/-- Indexing a duplicate-free list is injective. -/
theorem injective_getD_of_nodup (l : List ℕ) (h : l.length = 25) (hnd : l.Nodup) :
    Function.Injective (fun k : Fin 25 => l.getD k.val 0) := by
  intro k1 k2 hk
  simp only at hk
  rw [List.getD_eq_getElem l 0 (show (k1 : ℕ) < l.length by omega)] at hk
  rw [List.getD_eq_getElem l 0 (show (k2 : ℕ) < l.length by omega)] at hk
  exact Fin.ext (hnd.getElem_inj_iff.mp hk)

/-- A list of length 5 is a 5-element literal. -/
theorem list_eq_of_length_five {α : Type} (l : List α) (h : l.length = 5) :
    ∃ a b c d e, l = [a, b, c, d, e] := by
  match l, h with
  | [a, b, c, d, e], _ => exact ⟨a, b, c, d, e, rfl⟩

/-- C6: for every 5x5 card with 25 distinct entries, `get_all_lines`
contains exactly 12 canonical lines — none of the 5 rows, 5 columns and 2
diagonals collapse to the same value set. -/
theorem get_all_lines_card_twelve (card : Card) (h5 : card.length = 5)
    (hrow : ∀ r ∈ card, r.length = 5) (hnd : card.flatten.Nodup) :
    (get_all_lines card).card = 12 := by
  obtain ⟨r0, r1, r2, r3, r4, rfl⟩ := list_eq_of_length_five card h5
  obtain ⟨a0, a1, a2, a3, a4, rfl⟩ := list_eq_of_length_five r0 (hrow r0 (by simp))
  obtain ⟨b0, b1, b2, b3, b4, rfl⟩ := list_eq_of_length_five r1 (hrow r1 (by simp))
  obtain ⟨c0, c1, c2, c3, c4, rfl⟩ := list_eq_of_length_five r2 (hrow r2 (by simp))
  obtain ⟨d0, d1, d2, d3, d4, rfl⟩ := list_eq_of_length_five r3 (hrow r3 (by simp))
  obtain ⟨e0, e1, e2, e3, e4, rfl⟩ := list_eq_of_length_five r4 (hrow r4 (by simp))
  have hndL : ([a0, a1, a2, a3, a4, b0, b1, b2, b3, b4, c0, c1, c2, c3, c4,
      d0, d1, d2, d3, d4, e0, e1, e2, e3, e4] : List ℕ).Nodup := hnd
  have hf := injective_getD_of_nodup
    [a0, a1, a2, a3, a4, b0, b1, b2, b3, b4, c0, c1, c2, c3, c4,
     d0, d1, d2, d3, d4, e0, e1, e2, e3, e4] rfl hndL
  have hgrid : ([[a0, a1, a2, a3, a4], [b0, b1, b2, b3, b4], [c0, c1, c2, c3, c4],
      [d0, d1, d2, d3, d4], [e0, e1, e2, e3, e4]] : Card) =
      gridOfFn (fun k : Fin 25 =>
        ([a0, a1, a2, a3, a4, b0, b1, b2, b3, b4, c0, c1, c2, c3, c4,
          d0, d1, d2, d3, d4, e0, e1, e2, e3, e4] : List ℕ).getD k.val 0) := rfl
  rw [hgrid]
  exact card_lines_gridOfFn _ hf

/-- Witness for C6 on a concrete card. -/
theorem get_all_lines_card_twelve_witness :
    (generate_random_card shuffleA).length = 5 ∧
    (∀ r ∈ generate_random_card shuffleA, r.length = 5) ∧
    (generate_random_card shuffleA).flatten.Nodup ∧
    (get_all_lines (generate_random_card shuffleA)).card = 12 :=
  ⟨by decide, by decide, by decide,
   get_all_lines_card_twelve _ (by decide) (by decide) (by decide)⟩

/-- C7: line canonicalization is permutation-invariant: two value
sequences that are permutations of each other produce the same canonical
line (the sorted tuple used by `get_rows`, `get_columns` and
`get_diagonals`). -/
theorem line_canonicalization_perm_invariant (u v : List ℕ) (h : u.Perm v) :
    sortLine u = sortLine v ∧ get_rows [u] = get_rows [v] := by
  have hs : sortLine u = sortLine v :=
    List.eq_of_perm_of_sorted ((sortLine_perm u).trans (h.trans (sortLine_perm v).symm))
      (sortLine_sorted u) (sortLine_sorted v)
  exact ⟨hs, by simp [get_rows, hs]⟩

/-- Witness for C7: `[1,2,3,4,5]` and `[5,4,3,2,1]` canonicalize alike. -/
theorem line_canonicalization_perm_invariant_witness :
    ([1, 2, 3, 4, 5] : List ℕ).Perm [5, 4, 3, 2, 1] ∧
    sortLine [1, 2, 3, 4, 5] = sortLine [5, 4, 3, 2, 1] ∧
    get_rows [[1, 2, 3, 4, 5]] = get_rows [[5, 4, 3, 2, 1]] := by
  have hp : ([1, 2, 3, 4, 5] : List ℕ).Perm [5, 4, 3, 2, 1] := by decide
  exact ⟨hp, line_canonicalization_perm_invariant _ _ hp⟩

/-! ## The text artifact: saving and reading cards -/

/-- A line whose stripped form is nonempty, is not the single character
`'='`, and fails integer parsing makes `read_cards_from_file` raise. -/
theorem read_loop_error_head (line : PyStr) (rest : List PyStr)
    (cards : List (List (List ℤ))) (current : List (List ℤ))
    (h1 : pyStrip line ≠ []) (h2 : pyStrip line ≠ ['='])
    (h3 : parse_row (pyStrip line) = none) :
    read_cards_loop (line :: rest) cards current = Except.error (pyStrip line) := by
  rw [read_cards_loop]
  rw [if_neg h1, if_neg h2, h3]

/-- C8: the round trip fails — `read_cards_from_file` raises `ValueError`
on every file written by `save_cards_to_file` for a nonempty batch: the
very first line is the 27-character separator, which is not equal to the
single character `'='` the reader tests for, so it is fed to `int` and
parsing fails. -/
theorem read_of_saved_file_raises (card : Card) (rest : List Card) :
    read_cards_from_file (save_cards_to_file (card :: rest)) = Except.error sepLine := by
  have hsave : save_cards_to_file (card :: rest) =
      sepLine :: ((["  CARD ".data ++ pyFmt2 1, sepLine] ++ card.map rowText ++ [sepLine, []]) ++
        save_cards_aux 2 rest) := by
    rw [save_cards_to_file, save_cards_aux, card_block]
    simp
  rw [hsave, read_cards_from_file,
    read_loop_error_head _ _ _ _ (by decide) (by decide) (by decide)]
  rfl

/-- All tokens of a list parse: the whole list parses, keeping its length. -/
theorem pyIntList_of_all_some (ts : List PyStr) (h : ∀ t ∈ ts, (pyInt t).isSome) :
    ∃ vs, pyIntList ts = some vs ∧ vs.length = ts.length := by
  induction ts with
  | nil => exact ⟨[], rfl, rfl⟩
  | cons t ts ih =>
    obtain ⟨vs, hvs, hl⟩ := ih (fun x hx => h x (by simp [hx]))
    obtain ⟨v, hv⟩ := Option.isSome_iff_exists.mp (h t (by simp))
    refine ⟨v :: vs, ?_, by simp [hl]⟩
    rw [pyIntList, hv, hvs]

/-- One bad token makes the whole parse fail. -/
theorem pyIntList_none_of_mem (ts : List PyStr) (t : PyStr) (ht : t ∈ ts)
    (h : pyInt t = none) : pyIntList ts = none := by
  induction ts with
  | nil => simp at ht
  | cons s ss ih =>
    rcases List.mem_cons.mp ht with rfl | hmem
    · rw [pyIntList, h]
    · rw [pyIntList, ih hmem]
      cases pyInt s <;> rfl

/-- C9 (amended): `load_images_from_folder` raises `ValueError` exactly
when the folder does not hold exactly 25 JPEG files.  For
`read_cards_from_file`, a line whose tokens all parse as integers but do
not number exactly 5 is silently skipped with no failure reported, while a
line containing a non-integer token (other than the bare `'='` separator
marker) does raise a `ValueError`. -/
theorem malformed_input_reporting :
    (∀ (folder : PyStr) (listing : List PyStr),
      (∃ e, load_images_from_folder folder listing = Except.error e) ↔
        (listing.filter isJpegName).length ≠ 25) ∧
    (∀ line : PyStr,
      (∀ t ∈ pySplit (pyStrip line), (pyInt t).isSome) →
      (pySplit (pyStrip line)).length ≠ 5 →
      read_cards_from_file [line] = Except.ok []) ∧
    (∀ (line t : PyStr), t ∈ pySplit (pyStrip line) → pyInt t = none →
      pyStrip line ≠ ['='] →
      ∃ e, read_cards_from_file [line] = Except.error e) := by
  refine ⟨?_, ?_, ?_⟩
  · intro folder listing
    have hlen : (((listing.insertionSort (fun a b => strLtB b a = false)).filter
        isJpegName).map (fun name => folder ++ '/' :: name)).length =
        (listing.filter isJpegName).length := by
      rw [List.length_map]
      exact ((List.perm_insertionSort _ listing).filter isJpegName).length_eq
    by_cases h : (listing.filter isJpegName).length = 25
    · simp [load_images_from_folder, hlen, h]
    · simp [load_images_from_folder, hlen, h]
  · intro line hall hlen
    rw [read_cards_from_file, read_cards_loop]
    by_cases h0 : pyStrip line = []
    · rw [if_pos h0, read_cards_loop]
      rfl
    · rw [if_neg h0]
      by_cases h1 : pyStrip line = ['=']
      · rw [if_pos h1, if_neg (by simp), read_cards_loop]
        rfl
      · rw [if_neg h1]
        obtain ⟨row, hrow, hl⟩ := pyIntList_of_all_some _ hall
        have hrow2 : parse_row (pyStrip line) = some row := hrow
        rw [hrow2]
        show (if row.length = 5 then read_cards_loop [] [] ([] ++ [row])
          else read_cards_loop [] [] []) = Except.ok []
        rw [if_neg (by omega), read_cards_loop]
        rfl
  · intro line t ht hbad hne
    have h0 : pyStrip line ≠ [] := by
      intro h
      rw [h] at ht
      simp [pySplit] at ht
    refine ⟨pyStrip line, ?_⟩
    rw [read_cards_from_file,
      read_loop_error_head _ _ _ _ h0 hne (pyIntList_none_of_mem _ t ht hbad)]

/-- Counterexample to C9 as stated: the line `1 2 3` contains 3 integers,
not 5, yet `read_cards_from_file` reports no failure — it returns an empty
card list. -/
theorem malformed_row_silently_skipped :
    (pySplit (pyStrip (("1 2 3").data))).length = 3 ∧
    read_cards_from_file [("1 2 3").data] = Except.ok [] := by
  constructor
  · decide
  · rfl

/-- Witness for C9 at concrete inputs for all three parts. -/
theorem malformed_input_reporting_witness :
    (((([("a.jpg").data] : List PyStr).filter isJpegName).length ≠ 25) ∧
      (∃ e, load_images_from_folder (("f").data) [("a.jpg").data] = Except.error e)) ∧
    read_cards_from_file [("1 2").data] = Except.ok [] ∧
    (∃ e, read_cards_from_file [("a b").data] = Except.error e) :=
  ⟨⟨by decide, (malformed_input_reporting.1 (("f").data) [("a.jpg").data]).mpr (by decide)⟩,
   malformed_input_reporting.2.1 (("1 2").data) (by decide) (by decide),
   malformed_input_reporting.2.2 (("a b").data) (("a").data) (by decide) (by decide) (by decide)⟩
